import Mathlib

/-!
Verification of the MemoGarden Semantic API core (`src/api`) against its
natural-language specification.

The development shallowly embeds the Python source:

* `src/api/semantic.py` — verb dispatcher, routing (`_get_handler`),
  envelope validation (`_validate_request`), HTTP status mapping.
* `src/api/handlers/decorators.py` — the `with_audit` wrapper and
  `_get_error_code`.
* `src/api/handlers/soil.py` — `handle_amend`.
* `src/api/handlers/core.py` — `handle_search`, `handle_explore`.
* `src/api/handlers/artifact.py` — `handle_commit_artifact` error path.
* `src/api/schemas/semantic.py` — the pydantic `op` literal sets.

The `system.core` / `system.soil` stores and `utils.uid` are not part of the
repository snapshot; where a definition stands in for them it is marked
`Modelled from the spec:` and follows the spec text (sections 3, 4.1–4.3,
4.5, 4.9).  Machine integers do not occur; timestamps are opaque strings and
day counters are integers.  JSON scalar values are abstracted by `JVal`
(claims under verification never inspect nested JSON structure).
-/

/-- JSON scalar value.  Nested arrays and objects are not needed by any
claim under verification; dictionaries are represented separately as
association lists. -/
inductive JVal where
  | str (s : String)
  | num (n : Int)
  | bool (b : Bool)
  | null
deriving DecidableEq, Repr

/-- Dictionary: association list from string keys to JSON scalars. -/
abbrev JDict := List (String × JVal)

/-- First-match lookup, the observable semantics of a Python dict read. -/
def dlookup (d : JDict) (k : String) : Option JVal :=
  match d with
  | [] => none
  | (k', v) :: rest => if k' = k then some v else dlookup rest k

/-- Python `d[k] = v`: replace the entry in place when the key is present,
append otherwise. -/
def dictSet (d : JDict) (k : String) (v : JVal) : JDict :=
  if d.any (fun p => p.1 = k) then
    d.map (fun p => if p.1 = k then (k, v) else p)
  else
    d ++ [(k, v)]

/-- Python `d.update(e)`: fold `dictSet` over the entries of `e`. -/
def dictUpdate (d e : JDict) : JDict :=
  e.foldl (fun acc p => dictSet acc p.1 p.2) d

/-- The exception classes observable by the dispatcher and the audit layer.
`system/exceptions.py` is outside the snapshot; the constructors list the
classes imported by `src/api` (decorators.py, semantic.py, artifact.py),
treated as pairwise-unrelated classes, plus pydantic's `ValidationError`
and the built-in `ValueError`. -/
inductive Exc where
  | mgValidation
  | resourceNotFound
  | lockConflict
  | permissionDenied
  | authenticationError
  | conflictError
  | mgOther
  | pydanticValidation
  | valueError
  | otherExc
deriving DecidableEq, Repr

/-- Embeds `_get_error_code` (decorators.py lines 332–353): the
`isinstance` chain mapping exception classes to machine error codes. -/
def _get_error_code (e : Exc) : String :=
  match e with
  | .mgValidation => "validation_error"
  | .resourceNotFound => "not_found"
  | .lockConflict => "lock_conflict"
  | .permissionDenied => "permission_denied"
  | _ => "internal_error"

/-- Whether an exception class is a `MemoGardenError` (taxonomy of spec
section 7; the hierarchy itself is outside the snapshot). -/
def isMemoGarden (e : Exc) : Bool :=
  match e with
  | .mgValidation | .resourceNotFound | .lockConflict | .permissionDenied
  | .authenticationError | .conflictError | .mgOther => true
  | _ => false

/-- Embeds the `except` chain of `semantic_api` (semantic.py lines 245–332):
pydantic `ValidationError` → 400; `MemoGardenError` branch with
`ResourceNotFound` → 404, validation errors → 400, `AuthenticationError`
→ 401, otherwise 500; bare `ValueError` → 400; anything else → 500. -/
def dispatcherStatus (e : Exc) : Nat :=
  if e = .pydanticValidation then 400
  else if isMemoGarden e then
    if e = .resourceNotFound then 404
    else if e = .mgValidation then 400
    else if e = .authenticationError then 401
    else 500
  else if e = .valueError then 400
  else 500

/-- Embeds the `except ConflictError` clause of `handle_commit_artifact`
(artifact.py lines 112–114): a `ConflictError` escaping `commit_delta` is
re-raised as a bare `ValueError`; every other exception propagates
unchanged. -/
def commit_artifact_escaped_exc (e : Exc) : Exc :=
  if e = .conflictError then .valueError else e

/-- Modelled from the spec: `commit_delta` (section 4.5, step 1; the
artifact engine lives in `system.core`, outside the snapshot).  When the
caller's `based_on_hash` differs from the artifact's current hash the
commit fails with the optimistic-lock conflict exception, the
`ConflictError` named in artifact.py's docstring; otherwise no exception
arises from the lock check. -/
def commit_delta_lock_exc (currentHash basedOnHash : String) : Option Exc :=
  if basedOnHash ≠ currentHash then some .conflictError else none

/-- The exception reaching the dispatcher when `commit_artifact` hits an
optimistic-lock conflict: the audit wrapper re-raises the original
exception unchanged (decorators.py line 239), so only the handler's own
conversion applies. -/
def commit_artifact_conflict_exc (currentHash basedOnHash : String) : Option Exc :=
  (commit_delta_lock_exc currentHash basedOnHash).map commit_artifact_escaped_exc

/-! ### Verb routing (`semantic.py`) -/

/-- Boolean list-prefix test. -/
def isPrefixL : List Char → List Char → Bool
  | [], _ => true
  | _ :: _, [] => false
  | a :: as, b :: bs => a = b && isPrefixL as bs

/-- Python `s.startswith(tag)` over the underlying character lists. -/
def strStarts (s tag : String) : Bool := isPrefixL tag.data s.data

/-- Handler functions reachable from the dispatcher, one constructor per
Python function referenced by `HANDLERS` or `_get_handler`. -/
inductive HandlerRef where
  | handle_create | handle_edit | handle_forget | handle_track | handle_search
  | handle_link | handle_unlink | handle_edit_relation | handle_get_relation
  | handle_query_relation | handle_explore
  | handle_add | handle_amend
  | handle_enter | handle_leave | handle_focus
  | handle_commit_artifact | handle_get_artifact_at_commit | handle_diff_commits
  | handle_fold | handle_get_conversation
  | handle_get_fact | handle_get | handle_query_facts | handle_query
deriving DecidableEq, Repr

/-- Embeds the `HANDLERS` dict (semantic.py lines 79–107). -/
def HANDLERS (op : String) : Option HandlerRef :=
  if op = "create" then some .handle_create
  else if op = "edit" then some .handle_edit
  else if op = "forget" then some .handle_forget
  else if op = "track" then some .handle_track
  else if op = "search" then some .handle_search
  else if op = "link" then some .handle_link
  else if op = "unlink" then some .handle_unlink
  else if op = "edit_relation" then some .handle_edit_relation
  else if op = "get_relation" then some .handle_get_relation
  else if op = "query_relation" then some .handle_query_relation
  else if op = "explore" then some .handle_explore
  else if op = "add" then some .handle_add
  else if op = "amend" then some .handle_amend
  else if op = "enter" then some .handle_enter
  else if op = "leave" then some .handle_leave
  else if op = "focus" then some .handle_focus
  else if op = "commit_artifact" then some .handle_commit_artifact
  else if op = "get_artifact_at_commit" then some .handle_get_artifact_at_commit
  else if op = "diff_commits" then some .handle_diff_commits
  else if op = "fold" then some .handle_fold
  else if op = "get_conversation" then some .handle_get_conversation
  else none

/-- Embeds `_get_handler` (semantic.py lines 110–136).  `target?` and
`targetType?` are the raw JSON fields; `request_json.get("target", "")`
and `request_json.get("target_type", "entity")` supply the defaults. -/
def _get_handler (op : String) (target? : Option String)
    (targetType? : Option String) : Option HandlerRef :=
  if op = "get" then
    let target := target?.getD ""
    if strStarts target "soil_" then some .handle_get_fact
    else some .handle_get
  else if op = "query" then
    let targetType := targetType?.getD "entity"
    if targetType = "fact" then some .handle_query_facts
    else some .handle_query
  else HANDLERS op

/-! ### Envelope validation (`semantic.py` / `schemas/semantic.py`) -/

/-- One constructor per pydantic request schema class in
`src/api/schemas/semantic.py`. -/
inductive SchemaRef where
  | createRequest | getRequest | editRequest | forgetRequest | queryRequest
  | addRequest | amendRequest | linkRequest | unlinkRequest
  | queryRelationRequest | exploreRequest | trackRequest | searchRequest
  | enterRequest | leaveRequest | focusRequest
  | commitArtifactRequest | getArtifactAtCommitRequest | diffCommitsRequest
  | foldRequest
deriving DecidableEq, Repr

/-- Embeds the `request_schemas` dict of `_validate_request`
(semantic.py lines 353–377). -/
def request_schemas (op : String) : Option SchemaRef :=
  if op = "create" then some .createRequest
  else if op = "get" then some .getRequest
  else if op = "edit" then some .editRequest
  else if op = "forget" then some .forgetRequest
  else if op = "query" then some .queryRequest
  else if op = "add" then some .addRequest
  else if op = "amend" then some .amendRequest
  else if op = "link" then some .linkRequest
  else if op = "unlink" then some .unlinkRequest
  else if op = "edit_relation" then some .editRequest
  else if op = "get_relation" then some .getRequest
  else if op = "query_relation" then some .queryRelationRequest
  else if op = "explore" then some .exploreRequest
  else if op = "track" then some .trackRequest
  else if op = "search" then some .searchRequest
  else if op = "enter" then some .enterRequest
  else if op = "leave" then some .leaveRequest
  else if op = "focus" then some .focusRequest
  else if op = "commit_artifact" then some .commitArtifactRequest
  else if op = "get_artifact_at_commit" then some .getArtifactAtCommitRequest
  else if op = "diff_commits" then some .diffCommitsRequest
  else if op = "fold" then some .foldRequest
  else if op = "get_conversation" then some .getRequest
  else none

/-- The `op` values admitted by each schema's `Literal[...]` annotation
(schemas/semantic.py; e.g. `GetRequest.op : Literal["get", "get_relation"]`
at line 69). -/
def schemaOps (s : SchemaRef) : List String :=
  match s with
  | .createRequest => ["create"]
  | .getRequest => ["get", "get_relation"]
  | .editRequest => ["edit", "edit_relation"]
  | .forgetRequest => ["forget"]
  | .queryRequest => ["query", "query_relation"]
  | .addRequest => ["add"]
  | .amendRequest => ["amend"]
  | .linkRequest => ["link"]
  | .unlinkRequest => ["unlink"]
  | .queryRelationRequest => ["query_relation"]
  | .exploreRequest => ["explore"]
  | .trackRequest => ["track"]
  | .searchRequest => ["search"]
  | .enterRequest => ["enter"]
  | .leaveRequest => ["leave"]
  | .focusRequest => ["focus"]
  | .commitArtifactRequest => ["commit_artifact"]
  | .getArtifactAtCommitRequest => ["get_artifact_at_commit"]
  | .diffCommitsRequest => ["diff_commits"]
  | .foldRequest => ["fold"]

/-- Whether `_validate_request` accepts a request whose `"op"` field is
`op`: the schema looked up for `op` must admit `op` in its own `op`
literal, since pydantic validates the instantiation
`schema(**request_json)`. -/
def envelope_accepts (op : String) : Bool :=
  match request_schemas op with
  | some s => (schemaOps s).contains op
  | none => false

/-- The list the dispatcher advertises as `supported_operations`
(semantic.py line 224): the keys of `HANDLERS` together with `get` and
`query`. -/
def supported_operations : List String :=
  ["create", "edit", "forget", "track", "search", "link", "unlink",
   "edit_relation", "get_relation", "query_relation", "explore", "add",
   "amend", "enter", "leave", "focus", "commit_artifact",
   "get_artifact_at_commit", "diff_commits", "fold", "get_conversation",
   "get", "query"]

/-! ### The audit wrapper (`decorators.py`, `with_audit`) -/

/-- Request as seen by the audit wrapper: the `op` tag, the
`bypass_semantic_api` bit, the remaining op-specific fields (already the
output of `_serialize_params`, which drops `op`/`bypass_semantic_api` and
stringifies non-JSON values), and the optional `context` /
`parent_action` attributes read by `getattr`. -/
structure AuditReq where
  op : String
  bypass : Bool
  params : JDict
  context : Option String
  parentAction : Option String
deriving DecidableEq, Repr

/-- Payload of an audit fact.  `action` carries
`{actor, operation, params, context, request_id, parent_action}`
(decorators.py lines 111–118); `result` carries the `status`,
`error.code` (when status is `error`) and `duration_ms` fields of the
`ActionResult` data (lines 139–145 and 191–203; the free-text fields
`result`, `result_summary`, `error.message`, `error.details`,
`error_type`, `error_traceback` are not inspected by any claim and are
omitted). -/
inductive AFactData where
  | action (actor operation : String) (params : JDict)
      (context : Option String) (requestId : Nat) (parentAction : Option String)
  | result (status : String) (errorCode : Option String) (durationMs : Nat)
deriving DecidableEq, Repr

/-- A Soil fact as written by the audit wrapper.  UUIDs are drawn from a
counter (`generate_soil_uuid` abstracted to a fresh-number supply). -/
structure AFact where
  uuid : Nat
  _type : String
  realizedAt : String
  canonicalAt : String
  data : AFactData
deriving DecidableEq, Repr

/-- A `SystemRelation` row as written by the audit wrapper
(decorators.py lines 153–165). -/
structure ASysRel where
  uuid : Nat
  kind : String
  source : Nat
  sourceType : String
  target : Nat
  targetType : String
  createdAt : Int
  evidence : JDict
deriving DecidableEq, Repr

/-- One write inside a Soil transaction. -/
inductive AWrite where
  | wfact (f : AFact)
  | wrel (r : ASysRel)
deriving DecidableEq, Repr

/-- Modelled from the spec: the Soil store as the audit layer sees it
(`system.soil` is outside the snapshot).  Each `with get_soil() as soil:`
block that exits normally appends one committed transaction to `txns`;
a block exited by an exception commits nothing (section 5:
commit-on-success / rollback-on-exception).  `gen` is the fresh-UUID
supply. -/
structure ASoil where
  txns : List (List AWrite)
  gen : Nat
deriving DecidableEq, Repr

/-- Handler results are JSON dicts. -/
abbrev Res := JDict

/-- The `Action` fact built at decorators.py lines 106–119.  The source
draws `request_id` first and the fact UUID second, so `requestId = gen`
and `uuid = gen + 1`. -/
def auditActionFact (req : AuditReq) (actor now : String) (s0 : ASoil) : AFact :=
  { uuid := s0.gen + 1
    _type := "Action"
    realizedAt := now
    canonicalAt := now
    data := .action actor req.op req.params req.context s0.gen req.parentAction }

/-- The state after the first `with get_soil()` block: the `Action` fact
committed in its own transaction (decorators.py lines 121–124). -/
def auditCommitAction (req : AuditReq) (actor now : String) (s0 : ASoil) : ASoil :=
  { txns := s0.txns ++ [[AWrite.wfact (auditActionFact req actor now s0)]]
    gen := s0.gen + 2 }

/-- The `ActionResult` fact of the success path (decorators.py
lines 130–146). -/
def auditResultFactOk (now : String) (durMs : Nat) (s2 : ASoil) : AFact :=
  { uuid := s2.gen
    _type := "ActionResult"
    realizedAt := now
    canonicalAt := now
    data := .result "success" none durMs }

/-- The `ActionResult` fact of the error path (decorators.py
lines 184–204), carrying the code from `_get_error_code`. -/
def auditResultFactErr (e : Exc) (now : String) (durMs : Nat) (s1 : ASoil) : AFact :=
  { uuid := s1.gen
    _type := "ActionResult"
    realizedAt := now
    canonicalAt := now
    data := .result "error" (some ( _get_error_code e)) durMs }

/-- Evidence dict attached to the audit `result_of` relation. -/
def auditEvidence : JDict :=
  [("source", JVal.str "system_inferred"), ("method", JVal.str "audit_logging")]

/-- The `result_of` relation linking an `ActionResult` to its `Action`
(decorators.py lines 153–165 and 211–223). -/
def auditResultOfRel (relUuid arUuid actionUuid : Nat) (today : Int) : ASysRel :=
  { uuid := relUuid
    kind := "result_of"
    source := arUuid
    sourceType := "item"
    target := actionUuid
    targetType := "item"
    createdAt := today
    evidence := auditEvidence }

/-- Outcome of one audited invocation: the value or exception returned to
the dispatcher, the final Soil state, and the wrapper's own committed
transactions (`preTxn` before the handler, `postTxn` after; `none` when
that transaction was not committed). -/
structure AuditRun where
  outcome : Except Exc Res
  state : ASoil
  preTxn : Option (List AWrite)
  postTxn : Option (List AWrite)
deriving Repr

/-- Embeds `with_audit` (decorators.py lines 58–241) over an abstract
handler `h`.  `now`, `durMs` and `today` stand for the wall clock;
`auditFails` selects the `except Exception as audit_error` branch of the
error path (lines 226–236), the only audit write the source guards — in
that case the transaction of lines 207–225 commits nothing and the
original exception is re-raised. -/
def with_audit (h : ASoil → Except Exc (Res × ASoil)) (req : AuditReq)
    (actor now : String) (durMs : Nat) (today : Int) (auditFails : Bool)
    (s0 : ASoil) : AuditRun :=
  if req.bypass then
    match h s0 with
    | .ok (r, s1) => ⟨.ok r, s1, none, none⟩
    | .error e => ⟨.error e, s0, none, none⟩
  else
    let s1 := auditCommitAction req actor now s0
    match h s1 with
    | .ok (r, s2) =>
      let post := [AWrite.wfact (auditResultFactOk now durMs s2),
        AWrite.wrel (auditResultOfRel (s2.gen + 1) s2.gen
          (auditActionFact req actor now s0).uuid today)]
      ⟨.ok r, { txns := s2.txns ++ [post], gen := s2.gen + 2 },
        some [AWrite.wfact (auditActionFact req actor now s0)], some post⟩
    | .error e =>
      if auditFails then
        ⟨.error e, s1, some [AWrite.wfact (auditActionFact req actor now s0)], none⟩
      else
        let post := [AWrite.wfact (auditResultFactErr e now durMs s1),
          AWrite.wrel (auditResultOfRel (s1.gen + 1) s1.gen
            (auditActionFact req actor now s0).uuid today)]
        ⟨.error e, { txns := s1.txns ++ [post], gen := s1.gen + 2 },
          some [AWrite.wfact (auditActionFact req actor now s0)], some post⟩

/-- All writes the wrapper itself committed during one invocation. -/
def AuditRun.writes (run : AuditRun) : List AWrite :=
  run.preTxn.getD [] ++ run.postTxn.getD []

/-- Whether a write creates an `Action` fact. -/
def writeIsAction (w : AWrite) : Bool :=
  match w with
  | .wfact f => f._type = "Action"
  | .wrel _ => false

/-- Whether a write creates an `ActionResult` fact with the given status. -/
def writeIsResult (w : AWrite) (st : String) : Bool :=
  match w with
  | .wfact f =>
    f._type = "ActionResult" &&
      (match f.data with
       | .result s _ _ => s = st
       | _ => false)
  | .wrel _ => false

/-- Whether a write creates a `result_of` relation from `src` to `tgt`. -/
def writeIsResultOf (w : AWrite) (src tgt : Nat) : Bool :=
  match w with
  | .wrel r => r.kind = "result_of" && r.source = src && r.target = tgt
  | .wfact _ => false

/-- Demo handler that succeeds with a fixed dict and leaves the store
unchanged. -/
def demoHandlerOk : ASoil → Except Exc (Res × ASoil) :=
  fun s => .ok ([("uuid", JVal.str "core_x")], s)

/-- Demo handler that raises `ResourceNotFound`. -/
def demoHandlerErr : ASoil → Except Exc (Res × ASoil) :=
  fun _ => .error .resourceNotFound

/-- Demo request for the audit witnesses. -/
def demoAuditReq : AuditReq :=
  { op := "get", bypass := false,
    params := [("target", JVal.str "core_x")],
    context := none, parentAction := none }

/-- Demo request with the bypass bit set. -/
def demoAuditReqBypass : AuditReq := { demoAuditReq with bypass := true }

/-- Empty demo Soil state. -/
def demoASoil : ASoil := { txns := [], gen := 0 }

/-! ### The Soil item store and `handle_amend` (`soil.py`) -/

/-- Option merge with left preference (Python `a if a is not None else b`). -/
def oor (a b : Option α) : Option α :=
  match a with
  | some v => some v
  | none => b

/-- Modelled from the spec: a Soil fact row (section 3, table `item`).
Raw UUIDs are abstracted to naturals drawn from the store's fresh-UUID
counter; the wire prefixes of section 4.1 are verified separately in the
routing embedding and play no role in amendment. -/
structure Item where
  uuid : Nat
  _type : String
  data : JDict
  metadata : Option JDict
  integrity_hash : Option String
  fidelity : String
  realized_at : String
  canonical_at : String
  superseded_by : Option Nat
  superseded_at : Option String
deriving DecidableEq, Repr

/-- Modelled from the spec: a `system_relation` row (section 3). -/
structure SysRel where
  uuid : Nat
  kind : String
  source : Nat
  source_type : String
  target : Nat
  target_type : String
  created_at : Int
  evidence : JDict
deriving DecidableEq, Repr

/-- Modelled from the spec: the Soil store state (sections 4.2 and 6):
the configured baseline of fact types, the `item` and `system_relation`
tables, and the fresh-UUID supply. -/
structure SoilSt where
  baseline : List String
  items : List Item
  rels : List SysRel
  fresh : Nat
deriving DecidableEq, Repr

/-- Serialisation of a JSON scalar used by the integrity-hash stand-in. -/
def jvalRepr (v : JVal) : String :=
  match v with
  | .str s => "s:" ++ s
  | .num n => "n:" ++ toString n
  | .bool b => "b:" ++ toString b
  | .null => "null"

/-- Serialisation of a dict used by the integrity-hash stand-in. -/
def jdictRepr (d : JDict) : String :=
  d.foldl (fun acc p => acc ++ "|" ++ p.1 ++ "=" ++ jvalRepr p.2) ""

/-- Modelled from the spec: `compute_integrity_hash` (section 4.1) is
SHA-256 over `(type, data-canonical-json, realized_at, canonical_at)`;
the digest is abstracted to a tagged concatenation of the same fields. -/
def compute_integrity_hash (it : Item) : String :=
  "H256(" ++ it._type ++ ";" ++ jdictRepr it.data ++ ";" ++ it.realized_at
    ++ ";" ++ it.canonical_at ++ ")"

/-- Lookup of an item row by raw UUID (first match). -/
def getItemL (l : List Item) (u : Nat) : Option Item :=
  match l with
  | [] => none
  | it :: rest => if it.uuid = u then some it else getItemL rest u

/-- Modelled from the spec: `get_fact` / `soil.get_item` (section 4.2). -/
def get_item (s : SoilSt) (u : Nat) : Option Item :=
  getItemL s.items u

/-- Modelled from the spec: `generate_soil_uuid` abstracted to the
store's fresh-number supply. -/
def generate_soil_uuid (s : SoilSt) : Nat × SoilSt :=
  (s.fresh, { s with fresh := s.fresh + 1 })

/-- Modelled from the spec: `create_fact` / `soil.create_item`
(section 4.2) — stores a new immutable fact, computing `integrity_hash`
when absent, and fails with the validation error when `_type` is outside
the configured baseline set. -/
def create_item (s : SoilSt) (it : Item) : Except Exc (Nat × SoilSt) :=
  if s.baseline.contains it._type then
    let stored := { it with
      integrity_hash := some (it.integrity_hash.getD (compute_integrity_hash it)) }
    .ok (it.uuid, { s with items := s.items ++ [stored] })
  else .error .mgValidation

/-- The in-place update performed by `mark_superseded` on the original
row. -/
def setSuperseded (l : List Item) (origU newU : Nat) (at' : String) : List Item :=
  l.map (fun j =>
    if j.uuid = origU then
      { j with superseded_by := some newU, superseded_at := some at' }
    else j)

/-- Modelled from the spec: `mark_superseded` (section 4.2) — sets
`superseded_by` and `superseded_at` on the original; idempotent with
identical arguments; fails with the validation error when the original
is already superseded by a different fact. -/
def mark_superseded (s : SoilSt) (origU newU : Nat) (at' : String) :
    Except Exc SoilSt :=
  match get_item s origU with
  | none => .error .resourceNotFound
  | some it =>
    match it.superseded_by with
    | none => .ok { s with items := setSuperseded s.items origU newU at' }
    | some u => if u = newU then .ok s else .error .mgValidation

/-- Modelled from the spec: `create_system_relation` (section 4.2),
insert-only. -/
def create_system_relation (s : SoilSt) (r : SysRel) : SoilSt :=
  { s with rels := s.rels ++ [r] }

/-- The `AmendRequest` fields used by `handle_amend`
(schemas/semantic.py lines 159–186). -/
structure AmendReq where
  target : Nat
  data : JDict
  canonical_at : Option String
  metadata : Option JDict
deriving DecidableEq, Repr

/-- The dict built by `_item_to_fact_response` (soil.py lines 45–64);
`metadata` collapses a missing dict to the empty one. -/
structure FactResp where
  uuid : Nat
  type : String
  data : JDict
  metadata : JDict
  integrity_hash : Option String
  fidelity : String
  realized_at : String
  canonical_at : String
  superseded_by : Option Nat
  superseded_at : Option String
deriving DecidableEq, Repr

/-- Embeds `_item_to_fact_response` (soil.py lines 45–64). -/
def item_to_fact_response (it : Item) : FactResp :=
  { uuid := it.uuid
    type := it._type
    data := it.data
    metadata := it.metadata.getD []
    integrity_hash := it.integrity_hash
    fidelity := it.fidelity
    realized_at := it.realized_at
    canonical_at := it.canonical_at
    superseded_by := it.superseded_by
    superseded_at := it.superseded_at }

/-- Evidence dict of the `supersedes` relation (soil.py lines 254–258). -/
def amendEvidence : JDict :=
  [("source", JVal.str "user_stated"), ("method", JVal.str "semantic_api_amend")]

/-- Embeds `handle_amend` (soil.py lines 168–265): fetch the original,
reject a missing target with `ResourceNotFound` and an already superseded
one with the validation error; default `canonical_at` to the original's;
merge metadata starting from the empty dict, original first, request
second; create the amended item (the original's `_type`, `fidelity`
"full"); mark the original superseded; insert the `supersedes` relation;
re-fetch the amended item and return its response dict. -/
def handle_amend (s : SoilSt) (req : AmendReq) (now : String) (today : Int) :
    Except Exc (FactResp × SoilSt) :=
  match get_item s req.target with
  | none => .error .resourceNotFound
  | some original =>
    match original.superseded_by with
    | some _ => .error .mgValidation
    | none =>
      let canonical := (oor req.canonical_at (some original.canonical_at)).getD ""
      let newMeta := dictUpdate (dictUpdate [] (original.metadata.getD []))
        (req.metadata.getD [])
      let (newUuid, sg) := generate_soil_uuid s
      let amended : Item :=
        { uuid := newUuid
          _type := original._type
          data := req.data
          metadata := if newMeta.isEmpty then none else some newMeta
          integrity_hash := none
          fidelity := "full"
          realized_at := now
          canonical_at := canonical
          superseded_by := none
          superseded_at := none }
      match create_item sg amended with
      | .error e => .error e
      | .ok (amendedUuid, s1) =>
        match mark_superseded s1 req.target amendedUuid now with
        | .error e => .error e
        | .ok s2 =>
          let (relUuid, s3) := generate_soil_uuid s2
          let rel : SysRel :=
            { uuid := relUuid
              kind := "supersedes"
              source := amendedUuid
              source_type := "item"
              target := req.target
              target_type := "item"
              created_at := today
              evidence := amendEvidence }
          let s4 := create_system_relation s3 rel
          match get_item s4 amendedUuid with
          | none => .error .otherExc
          | some fetched => .ok (item_to_fact_response fetched, s4)

/-- Store well-formedness: every stored row's UUID was drawn from the
fresh supply and its type passed the baseline check at creation. -/
def soilWF (s : SoilSt) : Bool :=
  s.items.all (fun it => decide (it.uuid < s.fresh) && s.baseline.contains it._type)

/-- Demo store for the amendment witnesses: one live `Note` fact. -/
def demoNote : Item :=
  { uuid := 0
    _type := "Note"
    data := [("title", JVal.str "Original")]
    metadata := some [("k", JVal.str "v0"), ("keep", JVal.bool true)]
    integrity_hash := some "h0"
    fidelity := "full"
    realized_at := "2026-01-01T00:00:00Z"
    canonical_at := "2026-01-01T00:00:00Z"
    superseded_by := none
    superseded_at := none }

/-- Demo Soil store. -/
def demoSoilSt : SoilSt :=
  { baseline := ["Note", "Message", "Email", "ToolCall", "EntityDelta", "SystemEvent"]
    items := [demoNote]
    rels := []
    fresh := 1 }

/-- Demo amend request against `demoNote`. -/
def demoAmendReq : AmendReq :=
  { target := 0
    data := [("title", JVal.str "Corrected")]
    canonical_at := none
    metadata := some [("k", JVal.str "v1")] }

/-! ### Search (`core.py`, `handle_search`) -/

/-- ASCII lower-casing of one character (Python `str.lower` restricted to
the ASCII range, which covers every string the claims evaluate). -/
def charLower (c : Char) : Char :=
  if 'A' ≤ c && c ≤ 'Z' then Char.ofNat (c.toNat + 32) else c

/-- Lower-cased character list of a string, for case-insensitive match. -/
def charsLower (s : String) : List Char := s.data.map charLower

/-- Boolean substring (contiguous sublist) test. -/
def isSubL (needle hay : List Char) : Bool :=
  match hay with
  | [] => needle.isEmpty
  | _ :: rest => isPrefixL needle hay || isSubL needle rest

/-- Modelled from the spec: case-insensitive substring match
(section 4.9, SQLite `LIKE` with wildcards). -/
def textMatch (q text : String) : Bool :=
  isSubL (charsLower q) (charsLower text)

/-- Modelled from the spec: a searchable entity row, carrying the texts
of its name-like keys, body fields and metadata (section 4.9). -/
structure SEnt where
  uuid : String
  type : String
  nameText : String
  bodyText : String
  metaText : String
deriving DecidableEq, Repr

/-- Modelled from the spec: a searchable fact row. -/
structure SFact where
  uuid : String
  _type : String
  nameText : String
  bodyText : String
  metaText : String
deriving DecidableEq, Repr

/-- Modelled from the spec: the field set scanned at each coverage level
(section 4.9): `names` = name-like keys, `content` = names plus body,
`full` = everything including metadata. -/
def coverageFields (coverage nameText bodyText metaText : String) : List String :=
  if coverage = "names" then [nameText]
  else if coverage = "content" then [nameText, bodyText]
  else [nameText, bodyText, metaText]

/-- Whether an entity matches the query at the given coverage. -/
def entMatches (q coverage : String) (e : SEnt) : Bool :=
  (coverageFields coverage e.nameText e.bodyText e.metaText).any (textMatch q)

/-- Whether a fact matches the query at the given coverage. -/
def factMatches (q coverage : String) (f : SFact) : Bool :=
  (coverageFields coverage f.nameText f.bodyText f.metaText).any (textMatch q)

/-- Modelled from the spec: `core.entity.search(query, coverage, limit)`
(sections 4.3 and 4.9) — the matching rows, at most `limit` of them. -/
def search_entities (ents : List SEnt) (q coverage : String) (limit : Nat) :
    List SEnt :=
  (ents.filter (entMatches q coverage)).take limit

/-- Modelled from the spec: `soil.search_items(query, coverage, limit)`
(sections 4.2 and 4.9). -/
def search_items (facts : List SFact) (q coverage : String) (limit : Nat) :
    List SFact :=
  (facts.filter (factMatches q coverage)).take limit

/-- The two stores `handle_search` consults. -/
structure SearchStore where
  entities : List SEnt
  facts : List SFact
deriving DecidableEq, Repr

/-- The `SearchRequest` fields used by `handle_search`
(schemas/semantic.py lines 390–451). -/
structure SearchReq where
  query : String
  target_type : String
  coverage : String
  effort : String
  strategy : String
  limit : Nat
deriving DecidableEq, Repr

/-- One entry of the `results` list: an entity response dict or a fact
response dict with the `kind` marker. -/
inductive SearchHit where
  | ent (e : SEnt)
  | fact (f : SFact)
deriving DecidableEq, Repr

/-- The entity half of `handle_search` (core.py lines 909–920): consulted
only when `target_type` is `entity` or `all`. -/
def entityResults (st : SearchStore) (req : SearchReq) : List SearchHit :=
  if req.target_type = "entity" || req.target_type = "all" then
    (search_entities st.entities req.query req.coverage req.limit).map .ent
  else []

/-- The fact half of `handle_search` (core.py lines 923–954). -/
def factResults (st : SearchStore) (req : SearchReq) : List SearchHit :=
  if req.target_type = "fact" || req.target_type = "all" then
    (search_items st.facts req.query req.coverage req.limit).map .fact
  else []

/-- The response dict of `handle_search` (core.py lines 986–994). -/
structure SearchResult where
  query : String
  results : List SearchHit
  count : Nat
  continuation_token : Option String
  strategy : String
  coverage : String
  effort : String
deriving DecidableEq, Repr

/-- Embeds `handle_search` (core.py lines 869–994): the two store
searches, each called with the request's `limit`, concatenated entities
first (line 958); `continuation_token` is always `None` (lines 964–967);
`strategy` and `effort` are echoed unused. -/
def handle_search (st : SearchStore) (req : SearchReq) : SearchResult :=
  let er := entityResults st req
  let fr := factResults st req
  { query := req.query
    results := er ++ fr
    count := (er ++ fr).length
    continuation_token := none
    strategy := req.strategy
    coverage := req.coverage
    effort := req.effort }

/-- Demo searchable entity matching "pay". -/
def demoSEnt : SEnt :=
  { uuid := "e1", type := "Transaction", nameText := "Payment one",
    bodyText := "", metaText := "" }

/-- Demo searchable fact matching "pay". -/
def demoSFact : SFact :=
  { uuid := "f1", _type := "Note", nameText := "Payment two",
    bodyText := "", metaText := "" }

/-- Demo search store: one entity and one fact, both matching "pay". -/
def demoSearchStore : SearchStore :=
  { entities := [demoSEnt], facts := [demoSFact] }

/-- Demo search request with limit 1 over both stores. -/
def demoSearchReq : SearchReq :=
  { query := "pay", target_type := "all", coverage := "content",
    effort := "standard", strategy := "auto", limit := 1 }

/-! ### Explore (`core.py`, `handle_explore`) -/

/-- Modelled from the spec: `uid.add_prefix` for the core layer
(section 4.1; `utils.uid` is outside the snapshot). -/
def addCoreTag (u : String) : String := "core_" ++ u

/-- Modelled from the spec: `uid.add_prefix` for the soil layer. -/
def addSoilTag (u : String) : String := "soil_" ++ u

/-- Modelled from the spec: `uid.strip_prefix` (section 4.1) — removes a
known layer marker, returning an unmarked UUID unchanged. -/
def stripLayerTag (s : String) : String :=
  if strStarts s "core_" then s.drop 5
  else if strStarts s "soil_" then s.drop 5
  else if strStarts s "rel_" then s.drop 4
  else s

/-- Modelled from the spec: a `user_relation` row as read by explore
(section 3; only the fields the handler touches). -/
structure URel where
  uuid : String
  kind : String
  source : String
  source_type : String
  target : String
  target_type : String
  time_horizon : Int
deriving DecidableEq, Repr

/-- Modelled from the spec: the graph state explore reads — the
`user_relation` table, the entity and item tables projected to
`(uuid, type)`, and today's day counter. -/
structure GraphSt where
  rels : List URel
  entities : List (String × String)
  items : List (String × String)
  today : Int
deriving DecidableEq, Repr

/-- Modelled from the spec: `list_inbound(uuid, alive_only=True)`
(section 4.3) — relations targeting `u` whose horizon has not passed. -/
def list_inbound (g : GraphSt) (u : String) : List URel :=
  g.rels.filter (fun r => r.target = u && decide (g.today ≤ r.time_horizon))

/-- Modelled from the spec: `list_outbound(uuid, alive_only=True)`. -/
def list_outbound (g : GraphSt) (u : String) : List URel :=
  g.rels.filter (fun r => r.source = u && decide (g.today ≤ r.time_horizon))

/-- The `ExploreRequest` fields used by the handler
(schemas/semantic.py lines 335–363). -/
structure ExploreReq where
  anchor : String
  direction : String
  radius : Option Nat
  kind : Option String
  limit : Nat
deriving DecidableEq, Repr

/-- One entry of the `edges` list (core.py lines 542–550). -/
structure ExploreEdge where
  uuid : String
  kind : String
  source : String
  source_type : String
  target : String
  target_type : String
  direction : String
deriving DecidableEq, Repr

/-- One entry of the `nodes` list (core.py lines 591–614). -/
structure ExploreNode where
  uuid : String
  layer : String
  type : String
deriving DecidableEq, Repr

/-- The edge dict built for one relation row; explore adds the core
marker to every UUID field (core.py lines 542–550). -/
def mkEdge (r : URel) (dir : String) : ExploreEdge :=
  { uuid := addCoreTag r.uuid
    kind := r.kind
    source := addCoreTag r.source
    source_type := r.source_type
    target := addCoreTag r.target
    target_type := r.target_type
    direction := dir }

/-- Embeds one `for rel_row in …` loop of `handle_explore`
(core.py lines 535–555 and 563–583): skip rows failing the kind filter,
deduplicate by relation UUID via `visited_edges`, append the edge dict,
and queue the neighbour when it is not yet a visited node.  The
accumulator is `(visited_edges, edges, queued neighbours)`. -/
def processRels (req : ExploreReq) (rels : List URel) (dir : String)
    (pick : URel → String) (visited : List String) (dist : Nat)
    (acc0 : List String × List ExploreEdge × List (String × Nat)) :
    List String × List ExploreEdge × List (String × Nat) :=
  rels.foldl (fun acc r =>
    let (vE, es, pushes) := acc
    if (match req.kind with | some k => decide (r.kind ≠ k) | none => false) then acc
    else if vE.contains r.uuid then acc
    else
      let pushes' :=
        if visited.contains (pick r) then pushes else pushes ++ [(pick r, dist + 1)]
      (vE ++ [r.uuid], es ++ [mkEdge r dir], pushes')) acc0

/-- Embeds the BFS `while` loop of `handle_explore` (core.py
lines 516–583).  The loop guard requires a non-empty queue and fewer
visited nodes than `limit`; a distance beyond `radius` breaks out of the
loop; an already visited node is skipped.  `fuel` bounds the number of
iterations — the Python loop always terminates on a finite store, and
every theorem below holds for every fuel value. -/
def exploreLoop (g : GraphSt) (req : ExploreReq) :
    Nat → List (String × Nat) → List String → List String → List ExploreEdge →
    List String × List ExploreEdge
  | 0, _, visited, _, edges => (visited, edges)
  | _ + 1, [], visited, _, edges => (visited, edges)
  | fuel + 1, (current, dist) :: rest, visited, vEdges, edges =>
    if visited.length < req.limit then
      if (match req.radius with | some rad => decide (rad < dist) | none => false) then
        (visited, edges)
      else if visited.contains current then
        exploreLoop g req fuel rest visited vEdges edges
      else
        let visited' := visited ++ [current]
        let acc1 :=
          if req.direction = "incoming" || req.direction = "both" then
            processRels req (list_inbound g current) "incoming"
              (fun r => r.source) visited' dist (vEdges, edges, [])
          else (vEdges, edges, [])
        let acc2 :=
          if req.direction = "outgoing" || req.direction = "both" then
            processRels req (list_outbound g current) "outgoing"
              (fun r => r.target) visited' dist acc1
          else acc1
        exploreLoop g req fuel (rest ++ acc2.2.2) visited' acc2.1 acc2.2.1
    else (visited, edges)

/-- Lookup in a `(uuid, type)` table. -/
def lookupStr (l : List (String × String)) (u : String) : Option String :=
  match l.find? (fun p => p.1 = u) with
  | some p => some p.2
  | none => none

/-- Embeds the node-building loop of `handle_explore` (core.py lines
585–621): each visited UUID yields at most one node — from the entity
table when present (then `continue`), else from the item table, else
skipped. -/
def buildNodes (g : GraphSt) (visited : List String) : List ExploreNode :=
  visited.filterMap (fun u =>
    match lookupStr g.entities u with
    | some ty => some { uuid := addCoreTag u, layer := "core", type := ty }
    | none =>
      match lookupStr g.items u with
      | some ty => some { uuid := addSoilTag u, layer := "soil", type := ty }
      | none => none)

/-- The response dict of `handle_explore` (core.py lines 623–627). -/
structure ExploreResult where
  nodes : List ExploreNode
  edges : List ExploreEdge
  count : Nat
deriving DecidableEq, Repr

/-- Embeds `handle_explore` (core.py lines 481–627): strip the anchor's
layer marker, run the BFS from it, then build the node list from the
visited set. -/
def handle_explore (g : GraphSt) (req : ExploreReq) (fuel : Nat) : ExploreResult :=
  let ve := exploreLoop g req fuel [(stripLayerTag req.anchor, 0)] [] [] []
  let nodes := buildNodes g ve.1
  { nodes := nodes, edges := ve.2, count := nodes.length }

/-! ### Named pieces of the amend success path, used by the theorems. -/

/-- The metadata merge of `handle_amend`: start from the empty dict,
overlay the original's metadata, then the request's. -/
def amendNewMeta (req : AmendReq) (original : Item) : JDict :=
  dictUpdate (dictUpdate [] (original.metadata.getD [])) (req.metadata.getD [])

/-- The amended item's `canonical_at`: the request's when supplied, the
original's otherwise. -/
def amendCanonical (req : AmendReq) (original : Item) : String :=
  (oor req.canonical_at (some original.canonical_at)).getD ""

/-- The amended item as constructed by `handle_amend`, before
`create_item` fills the integrity hash. -/
def amendItemBase (s : SoilSt) (req : AmendReq) (now : String) (original : Item) :
    Item :=
  { uuid := s.fresh
    _type := original._type
    data := req.data
    metadata :=
      if (amendNewMeta req original).isEmpty then none
      else some (amendNewMeta req original)
    integrity_hash := none
    fidelity := "full"
    realized_at := now
    canonical_at := amendCanonical req original
    superseded_by := none
    superseded_at := none }

/-- The amended item as stored, with the computed integrity hash. -/
def amendStored (s : SoilSt) (req : AmendReq) (now : String) (original : Item) :
    Item :=
  { amendItemBase s req now original with
    integrity_hash := some (compute_integrity_hash (amendItemBase s req now original)) }

/-- The `supersedes` relation inserted by a successful amend. -/
def amendRel (s : SoilSt) (req : AmendReq) (today : Int) : SysRel :=
  { uuid := s.fresh + 1
    kind := "supersedes"
    source := s.fresh
    source_type := "item"
    target := req.target
    target_type := "item"
    created_at := today
    evidence := amendEvidence }

/-- The store state after a successful amend. -/
def amendFinal (s : SoilSt) (req : AmendReq) (now : String) (today : Int)
    (original : Item) : SoilSt :=
  { baseline := s.baseline
    items := setSuperseded (s.items ++ [amendStored s req now original]) req.target s.fresh now
    rels := s.rels ++ [amendRel s req today]
    fresh := s.fresh + 2 }

/-! ## Theorems -/

/-- C5: `get` routes to the Fact Store handler exactly when the target
carries the `soil_` marker and to the Entity Store handler otherwise;
`query` routes to the Fact Store handler exactly when `target_type` is
`"fact"` and to the Entity Store handler otherwise; `get_relation` and
`query_relation` always route to the relation sub-store handlers. -/
theorem routing_spec (target? targetType? : Option String) :
    (_get_handler "get" target? targetType? = some HandlerRef.handle_get_fact ↔
      strStarts (target?.getD "") "soil_" = true) ∧
    (strStarts (target?.getD "") "soil_" = false →
      _get_handler "get" target? targetType? = some HandlerRef.handle_get) ∧
    (_get_handler "query" target? targetType? = some HandlerRef.handle_query_facts ↔
      targetType?.getD "entity" = "fact") ∧
    (targetType?.getD "entity" ≠ "fact" →
      _get_handler "query" target? targetType? = some HandlerRef.handle_query) ∧
    _get_handler "get_relation" target? targetType? =
      some HandlerRef.handle_get_relation ∧
    _get_handler "query_relation" target? targetType? =
      some HandlerRef.handle_query_relation := by
  refine ⟨?_, ?_, ?_, ?_, ?_, ?_⟩
  · unfold _get_handler
    cases h : strStarts (target?.getD "") "soil_" <;> simp [h]
  · intro h
    unfold _get_handler
    simp [h]
  · unfold _get_handler
    by_cases h : targetType?.getD "entity" = "fact" <;> simp [h]
  · intro h
    unfold _get_handler
    simp [h]
  · rfl
  · rfl

/-- C5 witness: concrete routing decisions — a `soil_`-marked get goes to
the fact handler, an unmarked one to the entity handler, a fact-typed
query to the fact query handler. -/
theorem routing_spec_witness :
    _get_handler "get" (some "soil_abc") none = some HandlerRef.handle_get_fact ∧
    _get_handler "get" (some "core_abc") none = some HandlerRef.handle_get ∧
    _get_handler "query" none (some "fact") = some HandlerRef.handle_query_facts ∧
    _get_handler "query" none (some "relation") = some HandlerRef.handle_query := by
  have h1 := routing_spec (some "soil_abc") (none : Option String)
  have h2 := routing_spec (some "core_abc") (none : Option String)
  have h3 := routing_spec (none : Option String) (some "fact")
  have h4 := routing_spec (none : Option String) (some "relation")
  exact ⟨h1.1.mpr (by decide), h2.2.1 (by decide), h3.2.2.1.mpr (by decide),
    h4.2.2.2.1 (by decide)⟩

/-- C8: the code registers `get_conversation` as a dispatchable verb —
`HANDLERS` maps it to `handle_get_conversation` and the dispatcher
advertises it among `supported_operations` — yet `_validate_request`
validates it against `GetRequest`, whose `op` literal admits only
`"get"` and `"get_relation"`, so envelope validation rejects every
request with `op = "get_conversation"` before the handler can run. -/
theorem get_conversation_unreachable :
    HANDLERS "get_conversation" = some HandlerRef.handle_get_conversation ∧
    "get_conversation" ∈ supported_operations ∧
    request_schemas "get_conversation" = some SchemaRef.getRequest ∧
    schemaOps SchemaRef.getRequest = ["get", "get_relation"] ∧
    envelope_accepts "get_conversation" = false := by
  decide

/-- C4: a `commit_artifact` whose `based_on_hash` mismatches the current
hash raises `ConflictError`, which the handler converts to `ValueError`;
the dispatcher maps that to status 400 — not 409 — and indeed no
exception at all is mapped to 409 (a bare `LockConflictError` would fall
into the 500 branch). -/
theorem lock_conflict_status_not_409 (currentHash basedOnHash : String)
    (hmismatch : basedOnHash ≠ currentHash) :
    commit_artifact_conflict_exc currentHash basedOnHash = some Exc.valueError ∧
    (commit_artifact_conflict_exc currentHash basedOnHash).map dispatcherStatus =
      some 400 ∧
    dispatcherStatus Exc.lockConflict = 500 ∧
    (∀ e, dispatcherStatus e ≠ 409) := by
  refine ⟨?_, ?_, by decide, ?_⟩
  · simp [commit_artifact_conflict_exc, commit_delta_lock_exc, hmismatch,
      commit_artifact_escaped_exc]
  · simp [commit_artifact_conflict_exc, commit_delta_lock_exc, hmismatch,
      commit_artifact_escaped_exc]
    decide
  · intro e
    cases e <;> decide

/-- C4 witness: the scenario of spec section 8 S5 — current hash
`bbbbbbbb`, `based_on_hash` `aaaaaaaa`. -/
theorem lock_conflict_status_not_409_witness :
    ("aaaaaaaa" : String) ≠ "bbbbbbbb" ∧
    commit_artifact_conflict_exc "bbbbbbbb" "aaaaaaaa" = some Exc.valueError ∧
    (commit_artifact_conflict_exc "bbbbbbbb" "aaaaaaaa").map dispatcherStatus =
      some 400 := by
  have h := lock_conflict_status_not_409 "bbbbbbbb" "aaaaaaaa" (by decide)
  exact ⟨by decide, h.1, h.2.1⟩

/-- C3: with `bypass_semantic_api = true`, the wrapper commits no
transaction of its own — no `Action` fact, no `ActionResult` fact, no
`result_of` relation — and hands back the handler's result or exception
unchanged. -/
theorem bypass_no_audit_writes (h : ASoil → Except Exc (Res × ASoil))
    (req : AuditReq) (actor now : String) (durMs : Nat) (today : Int)
    (af : Bool) (s0 : ASoil) (hbp : req.bypass = true) :
    (with_audit h req actor now durMs today af s0).preTxn = none ∧
    (with_audit h req actor now durMs today af s0).postTxn = none ∧
    (with_audit h req actor now durMs today af s0).writes = [] ∧
    (∀ r s1, h s0 = .ok (r, s1) →
      (with_audit h req actor now durMs today af s0).outcome = .ok r ∧
      (with_audit h req actor now durMs today af s0).state = s1) ∧
    (∀ e, h s0 = .error e →
      (with_audit h req actor now durMs today af s0).outcome = .error e ∧
      (with_audit h req actor now durMs today af s0).state = s0) := by
  cases hh : h s0 with
  | ok p =>
    obtain ⟨r, s1⟩ := p
    have hw : with_audit h req actor now durMs today af s0 =
        ⟨.ok r, s1, none, none⟩ := by
      unfold with_audit
      rw [hbp]
      simp [hh]
    refine ⟨by rw [hw], by rw [hw], by rw [hw]; rfl, ?_, ?_⟩
    · intro r' s1' hok
      cases hok
      rw [hw]
      exact ⟨rfl, rfl⟩
    · intro e herr
      simp at herr
  | error e =>
    have hw : with_audit h req actor now durMs today af s0 =
        ⟨.error e, s0, none, none⟩ := by
      unfold with_audit
      rw [hbp]
      simp [hh]
    refine ⟨by rw [hw], by rw [hw], by rw [hw]; rfl, ?_, ?_⟩
    · intro r' s1' hok
      simp at hok
    · intro e' herr
      cases herr
      rw [hw]
      exact ⟨rfl, rfl⟩

/-- C3 witness: a bypassed request through the demo handler — no audit
transactions, result passed through. -/
theorem bypass_no_audit_writes_witness :
    (with_audit demoHandlerOk demoAuditReqBypass "testuser" "t0" 5 100 false
      demoASoil).preTxn = none ∧
    (with_audit demoHandlerOk demoAuditReqBypass "testuser" "t0" 5 100 false
      demoASoil).writes = [] ∧
    (with_audit demoHandlerOk demoAuditReqBypass "testuser" "t0" 5 100 false
      demoASoil).outcome = .ok [("uuid", JVal.str "core_x")] := by
  have h := bypass_no_audit_writes demoHandlerOk demoAuditReqBypass "testuser"
    "t0" 5 100 false demoASoil rfl
  exact ⟨h.1, h.2.2.1, (h.2.2.2.1 [("uuid", JVal.str "core_x")] demoASoil rfl).1⟩

/-- C1: for a non-bypassed invocation whose handler succeeds, the wrapper
commits exactly one `Action` fact, in its own transaction, before the
handler runs (the handler's input state already carries that
transaction), and exactly one `ActionResult` fact with status `success`
together with exactly one `result_of` relation from the `ActionResult`
to the `Action`, in one separate transaction committed after the handler
returns. -/
theorem audit_success_pair (h : ASoil → Except Exc (Res × ASoil))
    (req : AuditReq) (actor now : String) (durMs : Nat) (today : Int)
    (af : Bool) (s0 : ASoil) (r : Res) (s2 : ASoil)
    (hbp : req.bypass = false)
    (hok : h (auditCommitAction req actor now s0) = .ok (r, s2)) :
    (with_audit h req actor now durMs today af s0).outcome = .ok r ∧
    (with_audit h req actor now durMs today af s0).preTxn =
      some [AWrite.wfact (auditActionFact req actor now s0)] ∧
    (with_audit h req actor now durMs today af s0).postTxn =
      some [AWrite.wfact (auditResultFactOk now durMs s2),
        AWrite.wrel (auditResultOfRel (s2.gen + 1) s2.gen (s0.gen + 1) today)] ∧
    (auditCommitAction req actor now s0).txns =
      s0.txns ++ [[AWrite.wfact (auditActionFact req actor now s0)]] ∧
    (with_audit h req actor now durMs today af s0).state.txns =
      s2.txns ++ [[AWrite.wfact (auditResultFactOk now durMs s2),
        AWrite.wrel (auditResultOfRel (s2.gen + 1) s2.gen (s0.gen + 1) today)]] ∧
    (with_audit h req actor now durMs today af s0).writes.countP writeIsAction = 1 ∧
    (with_audit h req actor now durMs today af s0).writes.countP
      (fun w => writeIsResult w "success") = 1 ∧
    (with_audit h req actor now durMs today af s0).writes.countP
      (fun w => writeIsResultOf w s2.gen (s0.gen + 1)) = 1 := by
  have hw : with_audit h req actor now durMs today af s0 =
      ⟨.ok r,
        { txns := s2.txns ++ [[AWrite.wfact (auditResultFactOk now durMs s2),
            AWrite.wrel (auditResultOfRel (s2.gen + 1) s2.gen (s0.gen + 1) today)]],
          gen := s2.gen + 2 },
        some [AWrite.wfact (auditActionFact req actor now s0)],
        some [AWrite.wfact (auditResultFactOk now durMs s2),
          AWrite.wrel (auditResultOfRel (s2.gen + 1) s2.gen (s0.gen + 1) today)]⟩ := by
    unfold with_audit
    rw [hbp]
    simp [hok, auditActionFact]
  rw [hw]
  refine ⟨rfl, rfl, rfl, rfl, rfl, ?_, ?_, ?_⟩
  · simp [AuditRun.writes, List.countP_cons, writeIsAction, auditActionFact,
      auditResultFactOk, auditResultOfRel]
  · simp [AuditRun.writes, List.countP_cons, writeIsResult, auditActionFact,
      auditResultFactOk, auditResultOfRel]
  · simp [AuditRun.writes, List.countP_cons, writeIsResultOf, auditActionFact,
      auditResultFactOk, auditResultOfRel]

/-- C1 witness: the demo handler succeeding on the empty store. -/
theorem audit_success_pair_witness :
    (with_audit demoHandlerOk demoAuditReq "testuser" "t0" 5 100 false
      demoASoil).outcome = .ok [("uuid", JVal.str "core_x")] ∧
    (with_audit demoHandlerOk demoAuditReq "testuser" "t0" 5 100 false
      demoASoil).writes.countP writeIsAction = 1 := by
  have h := audit_success_pair demoHandlerOk demoAuditReq "testuser" "t0" 5 100
    false demoASoil [("uuid", JVal.str "core_x")]
    (auditCommitAction demoAuditReq "testuser" "t0" demoASoil) rfl rfl
  exact ⟨h.1, h.2.2.2.2.2.1⟩

/-- C2: for a non-bypassed invocation whose handler raises, the wrapper
re-raises the original exception in every case; when the audit write
succeeds it commits exactly one `ActionResult` fact with status `error`
whose `error.code` comes from `_get_error_code` — `validation_error` for
`ValidationError`, `not_found` for `ResourceNotFound`, `lock_conflict`
for `LockConflictError`, `permission_denied` for `PermissionDenied`,
`internal_error` for everything else — plus the `result_of` relation to
the `Action` fact; when the audit write itself fails nothing is
committed and the original exception still propagates unchanged. -/
theorem audit_error_result (h : ASoil → Except Exc (Res × ASoil))
    (req : AuditReq) (actor now : String) (durMs : Nat) (today : Int)
    (af : Bool) (s0 : ASoil) (e : Exc)
    (hbp : req.bypass = false)
    (herr : h (auditCommitAction req actor now s0) = .error e) :
    (with_audit h req actor now durMs today af s0).outcome = .error e ∧
    (with_audit h req actor now durMs today af s0).preTxn =
      some [AWrite.wfact (auditActionFact req actor now s0)] ∧
    (af = false →
      (with_audit h req actor now durMs today af s0).postTxn =
        some [AWrite.wfact (auditResultFactErr e now durMs
            (auditCommitAction req actor now s0)),
          AWrite.wrel (auditResultOfRel ((auditCommitAction req actor now s0).gen + 1)
            (auditCommitAction req actor now s0).gen (s0.gen + 1) today)] ∧
      (auditResultFactErr e now durMs (auditCommitAction req actor now s0)).data =
        AFactData.result "error" (some ( _get_error_code e)) durMs) ∧
    (af = true →
      (with_audit h req actor now durMs today af s0).postTxn = none ∧
      (with_audit h req actor now durMs today af s0).state =
        auditCommitAction req actor now s0) ∧
    _get_error_code Exc.mgValidation = "validation_error" ∧
    _get_error_code Exc.resourceNotFound = "not_found" ∧
    _get_error_code Exc.lockConflict = "lock_conflict" ∧
    _get_error_code Exc.permissionDenied = "permission_denied" ∧
    (∀ e', e' ≠ Exc.mgValidation → e' ≠ Exc.resourceNotFound →
      e' ≠ Exc.lockConflict → e' ≠ Exc.permissionDenied →
      _get_error_code e' = "internal_error") := by
  have hmap : ∀ e', e' ≠ Exc.mgValidation → e' ≠ Exc.resourceNotFound →
      e' ≠ Exc.lockConflict → e' ≠ Exc.permissionDenied →
      _get_error_code e' = "internal_error" := by
    intro e' h1 h2 h3 h4
    cases e' <;> first
      | rfl
      | exact absurd rfl h1
      | exact absurd rfl h2
      | exact absurd rfl h3
      | exact absurd rfl h4
  cases haf : af with
  | false =>
    have hw : with_audit h req actor now durMs today false s0 =
        ⟨.error e,
          { txns := (auditCommitAction req actor now s0).txns ++
              [[AWrite.wfact (auditResultFactErr e now durMs
                  (auditCommitAction req actor now s0)),
                AWrite.wrel (auditResultOfRel ((auditCommitAction req actor now s0).gen + 1)
                  (auditCommitAction req actor now s0).gen (s0.gen + 1) today)]],
            gen := (auditCommitAction req actor now s0).gen + 2 },
          some [AWrite.wfact (auditActionFact req actor now s0)],
          some [AWrite.wfact (auditResultFactErr e now durMs
              (auditCommitAction req actor now s0)),
            AWrite.wrel (auditResultOfRel ((auditCommitAction req actor now s0).gen + 1)
              (auditCommitAction req actor now s0).gen (s0.gen + 1) today)]⟩ := by
      unfold with_audit
      rw [hbp]
      simp [herr, auditActionFact]
    rw [hw]
    refine ⟨rfl, rfl, fun _ => ⟨rfl, rfl⟩, ?_, rfl, rfl, rfl, rfl, hmap⟩
    intro hc
    exact absurd hc (by decide)
  | true =>
    have hw : with_audit h req actor now durMs today true s0 =
        ⟨.error e, auditCommitAction req actor now s0,
          some [AWrite.wfact (auditActionFact req actor now s0)], none⟩ := by
      unfold with_audit
      rw [hbp]
      simp [herr]
    rw [hw]
    refine ⟨rfl, rfl, ?_, fun _ => ⟨rfl, rfl⟩, rfl, rfl, rfl, rfl, hmap⟩
    intro hc
    exact absurd hc (by decide)

/-- C2 witness: the demo failing handler (`ResourceNotFound`) with the
audit write succeeding — the wrapper records `error.code = "not_found"`
and re-raises. -/
theorem audit_error_result_witness :
    (with_audit demoHandlerErr demoAuditReq "testuser" "t0" 5 100 false
      demoASoil).outcome = .error Exc.resourceNotFound ∧
    (auditResultFactErr Exc.resourceNotFound "t0" 5
      (auditCommitAction demoAuditReq "testuser" "t0" demoASoil)).data =
      AFactData.result "error" (some "not_found") 5 := by
  have h := audit_error_result demoHandlerErr demoAuditReq "testuser" "t0" 5 100
    false demoASoil Exc.resourceNotFound rfl rfl
  exact ⟨h.1, (h.2.2.1 rfl).2⟩

/-- C7 counterexample: with one matching entity, one matching fact and
`limit = 1` over `target_type = "all"`, `handle_search` returns two
results — more than the request's limit.  Each store is capped at
`limit` separately and the concatenation is never truncated
(core.py line 958). -/
theorem search_limit_counterexample :
    (handle_search demoSearchStore demoSearchReq).results.length = 2 ∧
    demoSearchReq.limit = 1 ∧
    ¬ ((handle_search demoSearchStore demoSearchReq).results.length ≤
        demoSearchReq.limit) := by
  refine ⟨by decide, by decide, by decide⟩

/-- C7 amended: the results list is the entity matches followed by the
fact matches (entities first); each half is capped at the request's
`limit`, so the total is at most twice the limit, and at most the limit
when `target_type` names a single store. -/
theorem search_concat_bounds (st : SearchStore) (req : SearchReq) :
    (handle_search st req).results = entityResults st req ++ factResults st req ∧
    (entityResults st req).length ≤ req.limit ∧
    (factResults st req).length ≤ req.limit ∧
    (handle_search st req).results.length ≤ 2 * req.limit ∧
    (req.target_type = "entity" →
      (handle_search st req).results.length ≤ req.limit) ∧
    (req.target_type = "fact" →
      (handle_search st req).results.length ≤ req.limit) := by
  have hent : (entityResults st req).length ≤ req.limit := by
    unfold entityResults
    split
    · simp [search_entities]
    · simp
  have hfact : (factResults st req).length ≤ req.limit := by
    unfold factResults
    split
    · simp [search_items]
    · simp
  have hres : (handle_search st req).results =
      entityResults st req ++ factResults st req := rfl
  refine ⟨hres, hent, hfact, ?_, ?_, ?_⟩
  · rw [hres, List.length_append]
    omega
  · intro h
    have hf : factResults st req = [] := by
      unfold factResults
      rw [h]
      simp
    rw [hres, hf, List.append_nil]
    exact hent
  · intro h
    have he : entityResults st req = [] := by
      unfold entityResults
      rw [h]
      simp
    rw [hres, he, List.nil_append]
    exact hfact

/-- C7 amended witness: the demo store at `target_type = "entity"` stays
within the limit. -/
theorem search_concat_bounds_witness :
    (handle_search demoSearchStore
      { demoSearchReq with target_type := "entity" }).results.length ≤
      demoSearchReq.limit := by
  have h := search_concat_bounds demoSearchStore
    { demoSearchReq with target_type := "entity" }
  exact h.2.2.2.2.1 rfl

/-! ### Helper lemmas for dict merge and the item store. -/

/-- `oor` with an absent right alternative. -/
theorem oor_none_right (a : Option α) : oor a none = a := by
  cases a <;> rfl

/-- Lookup distributes over dict concatenation. -/
theorem dlookup_append (d1 d2 : JDict) (k : String) :
    dlookup (d1 ++ d2) k = oor (dlookup d1 k) (dlookup d2 k) := by
  induction d1 with
  | nil => simp [dlookup, oor]
  | cons p t ih =>
    obtain ⟨k', v⟩ := p
    by_cases h : k' = k
    · simp [dlookup, h, oor]
    · simp [dlookup, h, ih]

/-- A key absent from every entry looks up to nothing. -/
theorem dlookup_none_of_any_false (d : JDict) (k : String)
    (h : d.any (fun p => p.1 = k) = false) : dlookup d k = none := by
  induction d with
  | nil => rfl
  | cons p t ih =>
    simp only [List.any_cons, Bool.or_eq_false_iff] at h
    have h1 : p.1 ≠ k := by simpa using h.1
    simp [dlookup, h1, ih h.2]

/-- In-place replacement of the `k'` entries leaves other lookups
unchanged. -/
theorem dlookup_map_set_ne (d : JDict) (k' : String) (v : JVal) (k : String)
    (hne : k' ≠ k) :
    dlookup (d.map (fun p => if p.1 = k' then (k', v) else p)) k = dlookup d k := by
  induction d with
  | nil => rfl
  | cons p t ih =>
    obtain ⟨a, b⟩ := p
    rw [List.map_cons]
    by_cases ha : a = k'
    · subst ha
      rw [if_pos rfl]
      simp [dlookup, hne, ih]
    · rw [if_neg ha]
      simp [dlookup, ih]

/-- In-place replacement of an existing `k'` entry is observed by the
`k'` lookup. -/
theorem dlookup_map_set_eq (d : JDict) (k' : String) (v : JVal)
    (hany : d.any (fun p => p.1 = k') = true) :
    dlookup (d.map (fun p => if p.1 = k' then (k', v) else p)) k' = some v := by
  induction d with
  | nil => simp at hany
  | cons p t ih =>
    obtain ⟨a, b⟩ := p
    rw [List.map_cons]
    by_cases ha : a = k'
    · subst ha
      rw [if_pos rfl]
      simp [dlookup]
    · rw [if_neg ha]
      have ht : t.any (fun p => p.1 = k') = true := by
        simpa [List.any_cons, ha] using hany
      simp [dlookup, ha, ih ht]

/-- The observable effect of a Python dict assignment. -/
theorem dlookup_dictSet (d : JDict) (k' : String) (v : JVal) (k : String) :
    dlookup (dictSet d k' v) k = if k' = k then some v else dlookup d k := by
  unfold dictSet
  cases hany : d.any (fun p => p.1 = k') with
  | true =>
    rw [if_pos rfl]
    by_cases hk : k' = k
    · subst hk
      simp [dlookup_map_set_eq d k' v hany]
    · simp [hk, dlookup_map_set_ne d k' v k hk]
  | false =>
    rw [if_neg (by simp)]
    rw [dlookup_append]
    by_cases hk : k' = k
    · subst hk
      simp [dlookup_none_of_any_false d k' hany, dlookup, oor]
    · simp [dlookup, hk, oor_none_right]

/-- A key outside a dict's key list looks up to nothing. -/
theorem dlookup_not_mem (d : JDict) (k : String) (h : k ∉ d.map Prod.fst) :
    dlookup d k = none := by
  induction d with
  | nil => rfl
  | cons p t ih =>
    simp only [List.map_cons, List.mem_cons, not_or] at h
    have h1 : p.1 ≠ k := fun hc => h.1 hc.symm
    simp [dlookup, h1, ih h.2]

/-- The observable effect of Python `d.update(e)` when `e` is a real
dict (no duplicate keys): entries of `e` win, the rest fall back to `d`. -/
theorem dlookup_dictUpdate (d e : JDict) (k : String)
    (hnd : (e.map Prod.fst).Nodup) :
    dlookup (dictUpdate d e) k = oor (dlookup e k) (dlookup d k) := by
  induction e generalizing d with
  | nil => simp [dictUpdate, dlookup, oor]
  | cons p t ih =>
    obtain ⟨k', v⟩ := p
    simp only [List.map_cons, List.nodup_cons] at hnd
    have step : dictUpdate d ((k', v) :: t) = dictUpdate (dictSet d k' v) t := rfl
    rw [step, ih (dictSet d k' v) hnd.2, dlookup_dictSet]
    by_cases hk : k' = k
    · subst hk
      rw [dlookup_not_mem t k' hnd.1]
      simp [dlookup, oor]
    · simp [dlookup, hk, oor]

/-- An item found by `getItemL` is a member carrying the looked-up UUID. -/
theorem getItemL_mem (l : List Item) (u : Nat) (it : Item)
    (h : getItemL l u = some it) : it ∈ l ∧ it.uuid = u := by
  induction l with
  | nil => simp [getItemL] at h
  | cons j t ih =>
    by_cases hj : j.uuid = u
    · rw [getItemL, if_pos hj] at h
      cases h
      exact ⟨List.mem_cons_self _ _, hj⟩
    · rw [getItemL, if_neg hj] at h
      obtain ⟨hm, hu⟩ := ih h
      exact ⟨List.mem_cons_of_mem _ hm, hu⟩

/-- Item lookup distributes over table concatenation. -/
theorem getItemL_append (l1 l2 : List Item) (u : Nat) :
    getItemL (l1 ++ l2) u = oor (getItemL l1 u) (getItemL l2 u) := by
  induction l1 with
  | nil => simp [getItemL, oor]
  | cons j t ih =>
    by_cases hj : j.uuid = u
    · simp [getItemL, hj, oor]
    · simp [getItemL, hj, ih]

/-- Every stored row satisfies the store invariant's bounds. -/
theorem soilWF_spec (s : SoilSt) (hwf : soilWF s = true) :
    ∀ it ∈ s.items, it.uuid < s.fresh ∧ s.baseline.contains it._type = true := by
  intro it hmem
  unfold soilWF at hwf
  rw [List.all_eq_true] at hwf
  have h := hwf it hmem
  rw [Bool.and_eq_true] at h
  exact ⟨of_decide_eq_true h.1, h.2⟩

/-- UUIDs at or above the fresh counter are absent from a well-formed
store. -/
theorem getItemL_none_fresh (s : SoilSt) (hwf : soilWF s = true) (u : Nat)
    (hu : s.fresh ≤ u) : getItemL s.items u = none := by
  cases h : getItemL s.items u with
  | none => rfl
  | some it =>
    obtain ⟨hm, huu⟩ := getItemL_mem _ _ _ h
    have := (soilWF_spec s hwf it hm).1
    omega

/-- One-step unfolding of the item lookup. -/
theorem getItemL_cons (j : Item) (t : List Item) (u : Nat) :
    getItemL (j :: t) u = if j.uuid = u then some j else getItemL t u := rfl

/-- `mark_superseded` leaves lookups of other UUIDs unchanged. -/
theorem getItemL_setSuperseded_ne (l : List Item) (o n : Nat) (a : String)
    (u : Nat) (hne : u ≠ o) :
    getItemL (setSuperseded l o n a) u = getItemL l u := by
  induction l with
  | nil => rfl
  | cons j t ih =>
    simp only [setSuperseded, List.map_cons, getItemL_cons]
    by_cases hj : j.uuid = o
    · rw [if_pos hj]
      have hju : ¬ (j.uuid = u) := by
        rw [hj]
        exact fun hc => hne hc.symm
      rw [if_neg hju, if_neg hju]
      exact ih
    · rw [if_neg hj]
      by_cases hju : j.uuid = u
      · rw [if_pos hju, if_pos hju]
      · rw [if_neg hju, if_neg hju]
        exact ih

/-- `mark_superseded` rewrites the superseded row in place. -/
theorem getItemL_setSuperseded_eq (l : List Item) (o n : Nat) (a : String) :
    getItemL (setSuperseded l o n a) o =
      (getItemL l o).map
        (fun it => { it with superseded_by := some n, superseded_at := some a }) := by
  induction l with
  | nil => rfl
  | cons j t ih =>
    simp only [setSuperseded, List.map_cons, getItemL_cons]
    by_cases hj : j.uuid = o
    · rw [if_pos hj, if_pos hj, if_pos hj]
      rfl
    · rw [if_neg hj, if_neg hj, if_neg hj]
      exact ih

/-- Symbolic execution of the success path of `handle_amend`: on a
well-formed store, amending a live fact produces exactly the stored
amended item, the in-place supersession of the original, and the
appended `supersedes` relation. -/
theorem amend_success_shape (s : SoilSt) (req : AmendReq) (now : String)
    (today : Int) (hwf : soilWF s = true) (original : Item)
    (hget : get_item s req.target = some original)
    (hsup : original.superseded_by = none) :
    handle_amend s req now today =
      .ok (item_to_fact_response (amendStored s req now original),
        amendFinal s req now today original) := by
  have hmem := getItemL_mem s.items req.target original hget
  have hbase : s.baseline.contains original._type = true :=
    (soilWF_spec s hwf original hmem.1).2
  have hlt : req.target < s.fresh := by
    have h := (soilWF_spec s hwf original hmem.1).1
    have hu := hmem.2
    omega
  have h1 : ∀ it' : Item, getItemL (s.items ++ [it']) req.target = some original := by
    intro it'
    rw [getItemL_append]
    rw [show getItemL s.items req.target = some original from hget]
    rfl
  have h2 : ∀ it' : Item, it'.uuid = s.fresh →
      getItemL (setSuperseded (s.items ++ [it']) req.target s.fresh now) s.fresh =
        some it' := by
    intro it' hu
    rw [getItemL_setSuperseded_ne _ _ _ _ _ (by omega)]
    rw [getItemL_append]
    rw [getItemL_none_fresh s hwf s.fresh (Nat.le_refl _)]
    simp [getItemL, hu, oor]
  have hget' : getItemL s.items req.target = some original := hget
  simp only [handle_amend, get_item, generate_soil_uuid, create_item,
    mark_superseded, create_system_relation, hget', hsup, hbase, h1, h2,
    amendStored, amendItemBase, amendNewMeta, amendCanonical, amendFinal,
    amendRel, item_to_fact_response, Option.getD_none, if_true]

/-- C6: on a well-formed store, `amend u1` succeeds exactly when `u1`
exists and is not yet superseded; a success creates a fresh fact
`u2 ≠ u1`, sets `superseded_by = u2` and `superseded_at` on `u1`,
appends exactly one `supersedes` relation from `u2` to `u1`, and a
subsequent amend of `u1` fails with the validation error. -/
theorem amend_spec (s : SoilSt) (req : AmendReq) (now : String) (today : Int)
    (hwf : soilWF s = true) :
    ((∃ resp s', handle_amend s req now today = .ok (resp, s')) ↔
      (∃ it, get_item s req.target = some it ∧ it.superseded_by = none)) ∧
    (∀ resp s', handle_amend s req now today = .ok (resp, s') →
      resp.uuid ≠ req.target ∧
      (∀ it, get_item s req.target = some it →
        get_item s' req.target =
          some { it with superseded_by := some resp.uuid, superseded_at := some now }) ∧
      s'.rels = s.rels ++ [amendRel s req today] ∧
      (amendRel s req today).kind = "supersedes" ∧
      (amendRel s req today).source = resp.uuid ∧
      (amendRel s req today).target = req.target ∧
      (∀ req2 now2 today2, req2.target = req.target →
        handle_amend s' req2 now2 today2 = Except.error Exc.mgValidation)) := by
  constructor
  · constructor
    · rintro ⟨resp, s', hok⟩
      cases hg : get_item s req.target with
      | none =>
        have hg' : getItemL s.items req.target = none := hg
        simp [handle_amend, get_item, hg'] at hok
      | some it =>
        cases hs : it.superseded_by with
        | some u =>
          have hg' : getItemL s.items req.target = some it := hg
          simp [handle_amend, get_item, hg', hs] at hok
        | none => exact ⟨it, rfl, hs⟩
    · rintro ⟨it, hg, hs⟩
      exact ⟨_, _, amend_success_shape s req now today hwf it hg hs⟩
  · intro resp s' hok
    cases hg : get_item s req.target with
    | none =>
      have hg' : getItemL s.items req.target = none := hg
      simp [handle_amend, get_item, hg'] at hok
    | some original =>
      cases hs : original.superseded_by with
      | some u =>
        have hg' : getItemL s.items req.target = some original := hg
        simp [handle_amend, get_item, hg', hs] at hok
      | none =>
        have hshape := amend_success_shape s req now today hwf original hg hs
        rw [hshape] at hok
        cases hok
        have hmem := getItemL_mem s.items req.target original hg
        have hlt : req.target < s.fresh := by
          have h := (soilWF_spec s hwf original hmem.1).1
          have hu := hmem.2
          omega
        have huuid : (item_to_fact_response (amendStored s req now original)).uuid =
            s.fresh := rfl
        have hafter : get_item (amendFinal s req now today original) req.target =
            some { original with
              superseded_by := some s.fresh
              superseded_at := some now } := by
          show getItemL _ req.target = _
          rw [show (amendFinal s req now today original).items =
            setSuperseded (s.items ++ [amendStored s req now original]) req.target
              s.fresh now from rfl]
          rw [getItemL_setSuperseded_eq]
          rw [getItemL_append]
          rw [show getItemL s.items req.target = some original from hg]
          rfl
        refine ⟨?_, ?_, rfl, rfl, rfl, rfl, ?_⟩
        · rw [huuid]
          omega
        · intro it hit
          cases hit
          rw [hafter]
          rfl
        · intro req2 now2 today2 htgt
          have hafter' : getItemL (amendFinal s req now today original).items
              req2.target = some { original with
                superseded_by := some s.fresh
                superseded_at := some now } := by
            rw [htgt]
            exact hafter
          simp only [handle_amend, get_item, hafter']

/-- C6 witness: amending the demo `Note` succeeds. -/
theorem amend_spec_witness :
    soilWF demoSoilSt = true ∧
    (∃ resp s', handle_amend demoSoilSt demoAmendReq "t1" 50 = .ok (resp, s')) := by
  have h := amend_spec demoSoilSt demoAmendReq "t1" 50 (by decide)
  exact ⟨by decide, h.1.mpr ⟨demoNote, by decide, by decide⟩⟩

/-- Collapsing a possibly-empty dict stored as `None` loses nothing
observable. -/
theorem getD_if_isEmpty (l : JDict) :
    (if l.isEmpty then (none : Option JDict) else some l).getD [] = l := by
  cases l <;> simp

/-- C9: a successful amend inherits from the original fact: the new
fact's `_type` equals the original's, its `canonical_at` equals the
original's when the request supplies none, and its metadata is the
original's overlaid key-by-key with the request's (request keys win). -/
theorem amend_inherits (s : SoilSt) (req : AmendReq) (now : String) (today : Int)
    (resp : FactResp) (s' : SoilSt) (orig : Item)
    (hwf : soilWF s = true)
    (hndr : ((req.metadata.getD []).map Prod.fst).Nodup)
    (hndo : ((orig.metadata.getD []).map Prod.fst).Nodup)
    (hok : handle_amend s req now today = .ok (resp, s'))
    (horig : get_item s req.target = some orig) :
    resp.type = orig._type ∧
    (req.canonical_at = none → resp.canonical_at = orig.canonical_at) ∧
    (∀ k, dlookup resp.metadata k =
      oor (dlookup (req.metadata.getD []) k)
        (dlookup (orig.metadata.getD []) k)) := by
  cases hs : orig.superseded_by with
  | some u =>
    have hg' : getItemL s.items req.target = some orig := horig
    simp [handle_amend, get_item, hg', hs] at hok
  | none =>
    have hshape := amend_success_shape s req now today hwf orig horig hs
    rw [hshape] at hok
    cases hok
    have hm : (item_to_fact_response (amendStored s req now orig)).metadata =
        amendNewMeta req orig := by
      show (if (amendNewMeta req orig).isEmpty then none
        else some (amendNewMeta req orig)).getD [] = amendNewMeta req orig
      exact getD_if_isEmpty _
    refine ⟨rfl, ?_, ?_⟩
    · intro hc
      show amendCanonical req orig = orig.canonical_at
      rw [amendCanonical, hc]
      rfl
    · intro k
      rw [hm]
      show dlookup (dictUpdate (dictUpdate [] (orig.metadata.getD []))
        (req.metadata.getD [])) k = _
      rw [dlookup_dictUpdate _ _ _ hndr]
      rw [dlookup_dictUpdate _ _ _ hndo]
      rw [show dlookup ([] : JDict) k = none from rfl]
      rw [oor_none_right]

/-- C9 witness: the demo amend — type inherited, canonical time
inherited, metadata merged with the request key winning. -/
theorem amend_inherits_witness :
    (item_to_fact_response (amendStored demoSoilSt demoAmendReq "t1" demoNote)).type =
      demoNote._type ∧
    (item_to_fact_response (amendStored demoSoilSt demoAmendReq "t1"
      demoNote)).canonical_at = demoNote.canonical_at ∧
    dlookup (item_to_fact_response (amendStored demoSoilSt demoAmendReq "t1"
      demoNote)).metadata "k" = some (JVal.str "v1") ∧
    dlookup (item_to_fact_response (amendStored demoSoilSt demoAmendReq "t1"
      demoNote)).metadata "keep" = some (JVal.bool true) := by
  have h := amend_inherits demoSoilSt demoAmendReq "t1" 50
    (item_to_fact_response (amendStored demoSoilSt demoAmendReq "t1" demoNote))
    (amendFinal demoSoilSt demoAmendReq "t1" 50 demoNote) demoNote
    (by decide) (by decide) (by decide)
    (amend_success_shape demoSoilSt demoAmendReq "t1" 50 (by decide) demoNote
      (by decide) (by decide))
    (by decide)
  refine ⟨h.1, h.2.1 rfl, ?_, ?_⟩
  · rw [h.2.2 "k"]
    decide
  · rw [h.2.2 "keep"]
    decide

/-! ### Helper lemmas for explore. -/

/-- The core layer marker is injective. -/
theorem addCoreTag_injective : Function.Injective addCoreTag := by
  intro a b h
  unfold addCoreTag at h
  have hd := congrArg String.data h
  rw [String.data_append, String.data_append] at hd
  exact String.ext (List.append_cancel_left hd)

/-- The soil layer marker is injective. -/
theorem addSoilTag_injective : Function.Injective addSoilTag := by
  intro a b h
  unfold addSoilTag at h
  have hd := congrArg String.data h
  rw [String.data_append, String.data_append] at hd
  exact String.ext (List.append_cancel_left hd)

/-- Core-marked and soil-marked UUIDs never coincide. -/
theorem addCoreTag_ne_addSoilTag (a b : String) : addCoreTag a ≠ addSoilTag b := by
  intro h
  unfold addCoreTag addSoilTag at h
  have hd := congrArg String.data h
  rw [String.data_append, String.data_append] at hd
  simp at hd

/-- Each visited UUID yields at most one node entry. -/
theorem buildNodes_length_le (g : GraphSt) (l : List String) :
    (buildNodes g l).length ≤ l.length :=
  List.length_filterMap_le _ _

/-- Every node entry's uuid is the core- or soil-marked form of some
visited UUID. -/
theorem mem_buildNodes (g : GraphSt) (l : List String) (n : ExploreNode)
    (h : n ∈ buildNodes g l) :
    ∃ v ∈ l, n.uuid = addCoreTag v ∨ n.uuid = addSoilTag v := by
  unfold buildNodes at h
  obtain ⟨v, hv, hn⟩ := List.mem_filterMap.mp h
  refine ⟨v, hv, ?_⟩
  cases he : lookupStr g.entities v with
  | some ty =>
    rw [he] at hn
    cases hn
    left
    rfl
  | none =>
    rw [he] at hn
    cases hi : lookupStr g.items v with
    | some ty =>
      rw [hi] at hn
      cases hn
      right
      rfl
    | none =>
      rw [hi] at hn
      cases hn

/-- A marked form of a UUID outside the visited list is absent from its
node uuids. -/
theorem tag_not_mem_buildNodes (g : GraphSt) (t : List String) (u : String)
    (hu : u ∉ t) (tagu : String)
    (htag : tagu = addCoreTag u ∨ tagu = addSoilTag u) :
    tagu ∉ (buildNodes g t).map (fun n => n.uuid) := by
  intro hcontra
  obtain ⟨n, hn, hun⟩ := List.mem_map.mp hcontra
  obtain ⟨v, hv, hvu⟩ := mem_buildNodes g t n hn
  rcases htag with h1 | h1 <;> rcases hvu with h2 | h2
  · exact hu (addCoreTag_injective ((h2.symm.trans hun).trans h1) ▸ hv)
  · exact addCoreTag_ne_addSoilTag u v ((h1.symm.trans hun.symm).trans h2)
  · exact addCoreTag_ne_addSoilTag v u ((h2.symm.trans hun).trans h1)
  · exact hu (addSoilTag_injective ((h2.symm.trans hun).trans h1) ▸ hv)

/-- Distinct visited UUIDs yield node entries with distinct uuids. -/
theorem buildNodes_nodup (g : GraphSt) (l : List String) (hl : l.Nodup) :
    ((buildNodes g l).map (fun n => n.uuid)).Nodup := by
  induction l with
  | nil => simp [buildNodes]
  | cons u t ih =>
    rw [List.nodup_cons] at hl
    have iht := ih hl.2
    show ((List.filterMap _ (u :: t)).map _).Nodup
    rw [List.filterMap_cons]
    cases he : lookupStr g.entities u with
    | some ty =>
      dsimp only
      rw [List.map_cons, List.nodup_cons]
      exact ⟨tag_not_mem_buildNodes g t u hl.1 _ (Or.inl rfl), iht⟩
    | none =>
      cases hi : lookupStr g.items u with
      | some ty =>
        dsimp only
        rw [List.map_cons, List.nodup_cons]
        exact ⟨tag_not_mem_buildNodes g t u hl.1 _ (Or.inr rfl), iht⟩
      | none =>
        dsimp only
        exact iht

/-- A fold step that preserves a predicate preserves it over the whole
fold. -/
theorem foldl_preserve {α β : Type} (P : β → Prop) (f : β → α → β)
    (hf : ∀ acc a, P acc → P (f acc a)) :
    ∀ (l : List α) (acc : β), P acc → P (l.foldl f acc) := by
  intro l
  induction l with
  | nil => intro acc h; exact h
  | cons a t ih =>
    intro acc h
    rw [List.foldl_cons]
    exact ih (f acc a) (hf acc a h)

/-- The edge-collection loop keeps the visited-edge UUIDs distinct and
keeps the edge list's uuids exactly the core-marked visited-edge list. -/
theorem processRels_inv (req : ExploreReq) (rels : List URel) (dir : String)
    (pick : URel → String) (visited : List String) (dist : Nat)
    (acc0 : List String × List ExploreEdge × List (String × Nat))
    (h1 : acc0.1.Nodup)
    (h2 : acc0.2.1.map (fun e => e.uuid) = acc0.1.map addCoreTag) :
    (processRels req rels dir pick visited dist acc0).1.Nodup ∧
    (processRels req rels dir pick visited dist acc0).2.1.map (fun e => e.uuid) =
      (processRels req rels dir pick visited dist acc0).1.map addCoreTag := by
  unfold processRels
  refine foldl_preserve
    (fun acc => acc.1.Nodup ∧
      acc.2.1.map (fun e => e.uuid) = acc.1.map addCoreTag) _ ?_ rels acc0 ⟨h1, h2⟩
  intro acc r hP
  obtain ⟨vE, es, pushes⟩ := acc
  obtain ⟨hPa, hPb⟩ := hP
  dsimp only
  by_cases hk : (match req.kind with | some k => decide (r.kind ≠ k) | none => false) = true
  · rw [if_pos hk]
    exact ⟨hPa, hPb⟩
  · rw [if_neg hk]
    by_cases hc : vE.contains r.uuid = true
    · rw [if_pos hc]
      exact ⟨hPa, hPb⟩
    · rw [if_neg hc]
      have hnm : r.uuid ∉ vE := by simpa using hc
      constructor
      · simp [List.nodup_append, hnm, hPa]
      · simp [mkEdge, hPb]

/-- Both direction-conditional edge-collection passes of one loop
iteration preserve the edge invariant. -/
theorem acc2_inv (g : GraphSt) (req : ExploreReq) (current : String)
    (visited' : List String) (dist : Nat) (vEdges : List String)
    (edges : List ExploreEdge) (h3 : vEdges.Nodup)
    (h4 : edges.map (fun e => e.uuid) = vEdges.map addCoreTag) :
    (if req.direction = "outgoing" || req.direction = "both" then
        processRels req (list_outbound g current) "outgoing" (fun r => r.target)
          visited' dist
          (if req.direction = "incoming" || req.direction = "both" then
            processRels req (list_inbound g current) "incoming" (fun r => r.source)
              visited' dist (vEdges, edges, [])
          else (vEdges, edges, []))
      else
        if req.direction = "incoming" || req.direction = "both" then
          processRels req (list_inbound g current) "incoming" (fun r => r.source)
            visited' dist (vEdges, edges, [])
        else (vEdges, edges, [])).1.Nodup ∧
    (if req.direction = "outgoing" || req.direction = "both" then
        processRels req (list_outbound g current) "outgoing" (fun r => r.target)
          visited' dist
          (if req.direction = "incoming" || req.direction = "both" then
            processRels req (list_inbound g current) "incoming" (fun r => r.source)
              visited' dist (vEdges, edges, [])
          else (vEdges, edges, []))
      else
        if req.direction = "incoming" || req.direction = "both" then
          processRels req (list_inbound g current) "incoming" (fun r => r.source)
            visited' dist (vEdges, edges, [])
        else (vEdges, edges, [])).2.1.map (fun e => e.uuid) =
      (if req.direction = "outgoing" || req.direction = "both" then
          processRels req (list_outbound g current) "outgoing" (fun r => r.target)
            visited' dist
            (if req.direction = "incoming" || req.direction = "both" then
              processRels req (list_inbound g current) "incoming" (fun r => r.source)
                visited' dist (vEdges, edges, [])
            else (vEdges, edges, []))
        else
          if req.direction = "incoming" || req.direction = "both" then
            processRels req (list_inbound g current) "incoming" (fun r => r.source)
              visited' dist (vEdges, edges, [])
          else (vEdges, edges, [])).1.map addCoreTag := by
  have hA1 : (if req.direction = "incoming" || req.direction = "both" then
      processRels req (list_inbound g current) "incoming" (fun r => r.source)
        visited' dist (vEdges, edges, [])
    else (vEdges, edges, [])).1.Nodup ∧
      (if req.direction = "incoming" || req.direction = "both" then
        processRels req (list_inbound g current) "incoming" (fun r => r.source)
          visited' dist (vEdges, edges, [])
      else (vEdges, edges, [])).2.1.map (fun e => e.uuid) =
        (if req.direction = "incoming" || req.direction = "both" then
          processRels req (list_inbound g current) "incoming" (fun r => r.source)
            visited' dist (vEdges, edges, [])
        else (vEdges, edges, [])).1.map addCoreTag := by
    by_cases hin : (req.direction = "incoming" || req.direction = "both") = true
    · rw [if_pos hin]
      exact processRels_inv req (list_inbound g current) "incoming"
        (fun r => r.source) visited' dist (vEdges, edges, []) h3 h4
    · rw [if_neg hin]
      exact ⟨h3, h4⟩
  by_cases hout : (req.direction = "outgoing" || req.direction = "both") = true
  · rw [if_pos hout]
    exact processRels_inv req (list_outbound g current) "outgoing"
      (fun r => r.target) visited' dist _ hA1.1 hA1.2
  · rw [if_neg hout]
    exact hA1

/-- Invariants of the BFS loop: the visited list stays duplicate-free and
within the limit, and the collected edges carry exactly the core-marked
UUIDs of a duplicate-free visited-edge list. -/
theorem exploreLoop_inv (g : GraphSt) (req : ExploreReq) :
    ∀ (fuel : Nat) (queue : List (String × Nat)) (visited vEdges : List String)
      (edges : List ExploreEdge),
      visited.Nodup → visited.length ≤ req.limit → vEdges.Nodup →
      edges.map (fun e => e.uuid) = vEdges.map addCoreTag →
      (exploreLoop g req fuel queue visited vEdges edges).1.Nodup ∧
      (exploreLoop g req fuel queue visited vEdges edges).1.length ≤ req.limit ∧
      ∃ vE' : List String, vE'.Nodup ∧
        (exploreLoop g req fuel queue visited vEdges edges).2.map
          (fun e => e.uuid) = vE'.map addCoreTag := by
  intro fuel
  induction fuel with
  | zero =>
    intro queue visited vEdges edges h1 h2 h3 h4
    exact ⟨h1, h2, vEdges, h3, h4⟩
  | succ fuel ih =>
    intro queue visited vEdges edges h1 h2 h3 h4
    cases queue with
    | nil => exact ⟨h1, h2, vEdges, h3, h4⟩
    | cons c rest =>
      obtain ⟨current, dist⟩ := c
      show (exploreLoop g req (fuel + 1) ((current, dist) :: rest) visited vEdges
        edges).1.Nodup ∧ _
      rw [exploreLoop]
      by_cases hlim : visited.length < req.limit
      · rw [if_pos hlim]
        by_cases hrad :
            (match req.radius with | some rad => decide (rad < dist) | none => false) = true
        · rw [if_pos hrad]
          exact ⟨h1, h2, vEdges, h3, h4⟩
        · rw [if_neg hrad]
          by_cases hvis : visited.contains current = true
          · rw [if_pos hvis]
            exact ih rest visited vEdges edges h1 h2 h3 h4
          · rw [if_neg hvis]
            have hnm : current ∉ visited := by simpa using hvis
            have hnodup' : (visited ++ [current]).Nodup := by
              simp [List.nodup_append, hnm, h1]
            have hlen' : (visited ++ [current]).length ≤ req.limit := by
              rw [List.length_append]
              simpa using hlim
            have hE := acc2_inv g req current (visited ++ [current]) dist vEdges
              edges h3 h4
            exact ih _ _ _ _ hnodup' hlen' hE.1 hE.2
      · rw [if_neg hlim]
        exact ⟨h1, h2, vEdges, h3, h4⟩

/-- C10: for every explore request, store state and iteration bound, the
returned nodes list has at most `limit` entries with pairwise distinct
uuids, and the returned edges list has pairwise distinct relation
uuids. -/
theorem explore_bounds (g : GraphSt) (req : ExploreReq) (fuel : Nat) :
    (handle_explore g req fuel).nodes.length ≤ req.limit ∧
    ((handle_explore g req fuel).nodes.map (fun n => n.uuid)).Nodup ∧
    ((handle_explore g req fuel).edges.map (fun e => e.uuid)).Nodup := by
  obtain ⟨hnod, hlen, vE', hvE, hmap⟩ := exploreLoop_inv g req fuel
    [(stripLayerTag req.anchor, 0)] [] [] [] List.nodup_nil (by simp)
    List.nodup_nil (by simp)
  have hn : (handle_explore g req fuel).nodes =
      buildNodes g (exploreLoop g req fuel
        [(stripLayerTag req.anchor, 0)] [] [] []).1 := rfl
  have he : (handle_explore g req fuel).edges =
      (exploreLoop g req fuel [(stripLayerTag req.anchor, 0)] [] [] []).2 := rfl
  refine ⟨?_, ?_, ?_⟩
  · rw [hn]
    exact le_trans (buildNodes_length_le g _) hlen
  · rw [hn]
    exact buildNodes_nodup g _ hnod
  · rw [he, hmap]
    exact List.Nodup.map addCoreTag_injective hvE
